import Mathlib

/-!
Verification of the colour-strip analysis pipeline of
`ColorAnalyzerApp/backend/main.py` (`analyze_strip_image` together with its
inner helper `fit_and_evaluate`).

Modelling conventions:
* IEEE doubles are modelled by exact rational arithmetic (`ℚ`); decimal
  literals of the source are read at face value.
* `np.pi` is a fixed constant of the float library; it is threaded through as
  an explicit parameter `piv` (no statement below depends on its value).
* Outputs of the OpenCV primitives (`findContours`, `contourArea`,
  `arcLength`, `minEnclosingCircle`, the decoded pixel planes and the
  saturation plane produced by `cvtColor`) are the inputs of the model: a
  `Contour` carries the measured area, perimeter and enclosing-circle data of
  one external contour of the cleaned mask, and `Img` carries the pixel
  planes of the (already resized) working image.
* `np.std` and the RMSE are square roots of rational quantities; the
  embedding stores their squares (`.._var` fields, `mse`), which are zero
  exactly when the source's values are.
-/

/-- Python's `int(...)` on a float: truncation toward zero. -/
def pyInt (q : ℚ) : ℤ := if q < 0 then ⌈q⌉ else ⌊q⌋

/-- Python's `round(...)`: nearest integer, ties to the even neighbour. -/
def pyRound (q : ℚ) : ℤ :=
  if q - ⌊q⌋ < 1/2 then ⌊q⌋
  else if 1/2 < q - ⌊q⌋ then ⌊q⌋ + 1
  else if ⌊q⌋ % 2 = 0 then ⌊q⌋ else ⌊q⌋ + 1

/-- `EXPECTED_COLS` of `analyze_strip_image`. -/
def EXPECTED_COLS : ℕ := 11

/-- `CONCENTRATIONS` of `analyze_strip_image` (known reference values). -/
def CONCENTRATIONS : List ℚ := [1/2, 1, 2, 3, 4, 5, 6, 7, 8, 9, 10]

/-- `SAT_THRESH` of `analyze_strip_image`. -/
def SAT_THRESH : ℕ := 35

/-- `VAL_THRESH` of `analyze_strip_image`. -/
def VAL_THRESH : ℕ := 40

/-- `MIN_BLOB_AREA` of `analyze_strip_image`. -/
def MIN_BLOB_AREA : ℚ := 60

/-- The binary segmentation mask of line 75: a pixel is set iff `S > 35` and
`V > 40`. -/
def padMask (s v : ℕ) : Bool := decide (SAT_THRESH < s) && decide (VAL_THRESH < v)

/-- Measured data of one external contour of the cleaned mask: `contourArea`,
`arcLength` and the centre/radius returned by `minEnclosingCircle`. -/
structure Contour where
  area : ℚ
  peri : ℚ
  x : ℚ
  y : ℚ
  r : ℚ
deriving DecidableEq

/-- One entry of the `blobs` list: `(int(x), int(y), int(round(r)), area, circ)`. -/
structure Blob where
  x : ℤ
  y : ℤ
  r : ℤ
  area : ℚ
  circ : ℚ
deriving DecidableEq

/-- `circ = 4.0 * np.pi * area / (peri * peri)` (line 94). -/
def circularity (piv area peri : ℚ) : ℚ := 4 * piv * area / (peri * peri)

/-- The blob tuple appended at line 97. -/
def mkBlob (piv : ℚ) (c : Contour) : Blob :=
  { x := pyInt c.x, y := pyInt c.y, r := pyRound c.r
    area := c.area, circ := circularity piv c.area c.peri }

/-- The contour loop of lines 86-97: contours with `area < 5` or zero
perimeter are skipped, the rest are kept when `area >= MIN_BLOB_AREA` and
`circ >= 0.3`. -/
def extractBlobs (piv : ℚ) (cnts : List Contour) : List Blob :=
  cnts.filterMap fun c =>
    if c.area < 5 then none
    else if c.peri = 0 then none
    else if MIN_BLOB_AREA ≤ c.area ∧ (3/10 : ℚ) ≤ circularity piv c.area c.peri then
      some (mkBlob piv c)
    else none

/-- `sorted(blobs, key=lambda b: b[0])` — Python's sort is stable, as is
`List.mergeSort`. -/
def sortByX (bs : List Blob) : List Blob :=
  bs.mergeSort fun a b => decide (a.x ≤ b.x)

/-- `np.median`: the middle entry of the sorted data for odd length, the mean
of the two middle entries for even length. -/
def median (l : List ℚ) : ℚ :=
  let s := l.mergeSort fun a b => decide (a ≤ b)
  if l.length % 2 = 1 then s.getD (l.length / 2) 0
  else (s.getD (l.length / 2 - 1) 0 + s.getD (l.length / 2) 0) / 2

/-- `median_y = np.median(ys)` of line 106 (`ys` is taken from the x-sorted
blob list). -/
def medY (bs : List Blob) : ℚ := median ((sortByX bs).map fun b => (b.y : ℚ))

/-- The sort key of line 107: absolute deviation of the y-centroid from the
median y-centroid. -/
def devLe (m : ℚ) (a b : Blob) : Bool := decide (|(a.y : ℚ) - m| ≤ |(b.y : ℚ) - m|)

/-- Lines 102-108: sort left-to-right; when more than `EXPECTED_COLS` blobs
were found, keep the `EXPECTED_COLS` whose y-centroids are closest to the
median y-centroid (stable sort by deviation, then a prefix), and re-sort the
kept blobs by x. -/
def selectBlobs (bs : List Blob) : List Blob :=
  let s := sortByX bs
  if EXPECTED_COLS < s.length then
    sortByX ((s.mergeSort (devLe (medY bs))).take EXPECTED_COLS)
  else s

/-- The working image: height, width, the BGR pixel planes (`img_bgr`, as a
`(b, g, r)` triple per pixel) and the saturation plane `S`. -/
structure Img where
  h : ℕ
  w : ℕ
  pix : ℕ → ℕ → ℕ × ℕ × ℕ
  sat : ℕ → ℕ → ℕ

/-- One record of `rgb_data`.  The source stores `np.std` values; this model
records their squares (`.._var`), which vanish exactly when the stds do. -/
structure StatRec where
  r_mean : ℚ
  g_mean : ℚ
  b_mean : ℚ
  s_mean : ℚ
  r_var : ℚ
  g_var : ℚ
  b_var : ℚ
deriving DecidableEq

/-- The all-zero record of lines 137-140 (and of the padding at line 146). -/
def zeroStat : StatRec := ⟨0, 0, 0, 0, 0, 0, 0⟩

/-- `np.mean` of a list of values. -/
def mean (l : List ℚ) : ℚ := l.sum / (l.length : ℚ)

/-- The square of `np.std`: mean squared deviation from the mean. -/
def variance (l : List ℚ) : ℚ := ((l.map fun v => (v - mean l) ^ 2).sum) / (l.length : ℚ)

/-- `rr = max(1, int(r * 0.72))` of line 115. -/
def rr72 (r : ℤ) : ℤ := max 1 (pyInt ((r : ℚ) * (72/100)))

/-- The circular sampling mask of lines 116-118: the in-image pixels `(y, x)`
whose squared distance from the centroid is at most `rr * rr`, in row-major
order (the order in which a numpy boolean mask gathers values). -/
def maskPixels (img : Img) (cx cy rr : ℤ) : List (ℕ × ℕ) :=
  (List.range img.h).flatMap fun (y : ℕ) =>
    (List.range img.w).filterMap fun (x : ℕ) =>
      if ((x : ℤ) - cx) ^ 2 + ((y : ℤ) - cy) ^ 2 ≤ rr * rr then some (y, x) else none

/-- Lines 114-140: sample one well.  When the mask selects at least one pixel
the per-channel means and (squared) stds are recorded, otherwise the all-zero
record is emitted. -/
def sampleWell (img : Img) (b : Blob) : StatRec :=
  let pts := maskPixels img b.x b.y (rr72 b.r)
  if 0 < pts.length then
    let bv := pts.map fun p => ((img.pix p.1 p.2).1 : ℚ)
    let gv := pts.map fun p => ((img.pix p.1 p.2).2.1 : ℚ)
    let rv := pts.map fun p => ((img.pix p.1 p.2).2.2 : ℚ)
    let sv := pts.map fun p => ((img.sat p.1 p.2 : ℕ) : ℚ)
    { r_mean := mean rv, g_mean := mean gv, b_mean := mean bv, s_mean := mean sv
      r_var := variance rv, g_var := variance gv, b_var := variance bv }
  else zeroStat

/-- Lines 142-147: truncate to `EXPECTED_COLS` records or pad with all-zero
records. -/
def padTruncate (l : List StatRec) : List StatRec :=
  if EXPECTED_COLS < l.length then l.take EXPECTED_COLS
  else if l.length < EXPECTED_COLS then
    l ++ List.replicate (EXPECTED_COLS - l.length) zeroStat
  else l

/-- Power sum `Σ xᵢᵏ` (for `k = 0` this is the sample count, as in the normal
equations of a least-squares fit). -/
def powSum (xv : List ℚ) (k : ℕ) : ℚ := (xv.map fun t => t ^ k).sum

/-- Moment `Σ xᵢᵏ · yᵢ`. -/
def dotPow (xv yv : List ℚ) (k : ℕ) : ℚ := (List.zipWith (fun x y => x ^ k * y) xv yv).sum

/-- Determinant of a 3×3 matrix given row-wise. -/
def det3 (a₁ a₂ a₃ b₁ b₂ b₃ c₁ c₂ c₃ : ℚ) : ℚ :=
  a₁ * (b₂ * c₃ - b₃ * c₂) - a₂ * (b₁ * c₃ - b₃ * c₁) + a₃ * (b₁ * c₂ - b₂ * c₁)

/-- Determinant of the Gram matrix of the degree-2 least-squares system for
sample points `xv` (the matrix of the normal equations). -/
def gramDet (xv : List ℚ) : ℚ :=
  det3 (powSum xv 4) (powSum xv 3) (powSum xv 2)
       (powSum xv 3) (powSum xv 2) (powSum xv 1)
       (powSum xv 2) (powSum xv 1) (powSum xv 0)

/-- `np.polyfit` computes the least-squares solution with `lstsq`, which
returns the minimum-norm solution when the Vandermonde matrix is
rank-deficient.  Rank deficiency happens exactly when `xv` has at most two
distinct values; the rank-one shape (all sample points equal, the only
degenerate shape the pipeline's claims exercise) is modelled exactly by its
closed-form minimum-norm solution. -/
def lstsqDegenerate (xv yv : List ℚ) : ℚ × ℚ × ℚ :=
  match xv with
  | [] => (0, 0, 0)
  | c :: rest =>
    if rest.all fun t => t = c then
      let m := mean yv
      let nrm := c ^ 4 + c ^ 2 + 1
      (m * c ^ 2 / nrm, m * c / nrm, m / nrm)
    else (0, 0, 0)

/-- `np.polyfit(xv, yv, deg=2)`: the least-squares fit `yv ≈ a·xv² + b·xv + c`,
returned highest degree first.  For a nonsingular system this is the unique
solution of the normal equations, computed here by Cramer's rule. -/
def polyfit2 (xv yv : List ℚ) : ℚ × ℚ × ℚ :=
  if gramDet xv = 0 then lstsqDegenerate xv yv
  else
    (det3 (dotPow xv yv 2) (powSum xv 3) (powSum xv 2)
          (dotPow xv yv 1) (powSum xv 2) (powSum xv 1)
          (dotPow xv yv 0) (powSum xv 1) (powSum xv 0) / gramDet xv,
     det3 (powSum xv 4) (dotPow xv yv 2) (powSum xv 2)
          (powSum xv 3) (dotPow xv yv 1) (powSum xv 1)
          (powSum xv 2) (dotPow xv yv 0) (powSum xv 0) / gramDet xv,
     det3 (powSum xv 4) (powSum xv 3) (dotPow xv yv 2)
          (powSum xv 3) (powSum xv 2) (dotPow xv yv 1)
          (powSum xv 2) (powSum xv 1) (dotPow xv yv 0) / gramDet xv)

/-- Evaluation of a `np.poly1d` with coefficients highest degree first. -/
def evalPoly2 (co : ℚ × ℚ × ℚ) (t : ℚ) : ℚ := co.1 * t ^ 2 + co.2.1 * t + co.2.2

/-- Residual sum of squares of `sklearn.metrics.r2_score`. -/
def ssRes (yt yp : List ℚ) : ℚ := (List.zipWith (fun t p => (t - p) ^ 2) yt yp).sum

/-- Total sum of squares of `sklearn.metrics.r2_score`. -/
def ssTot (yt : List ℚ) : ℚ := (yt.map fun t => (t - mean yt) ^ 2).sum

/-- `sklearn.metrics.r2_score`: when the total sum of squares vanishes the
division is not performed; the score is 1 for a zero residual and 0
otherwise. -/
def r2_score (yt yp : List ℚ) : ℚ :=
  if ssTot yt = 0 then (if ssRes yt yp = 0 then 1 else 0)
  else 1 - ssRes yt yp / ssTot yt

/-- `sklearn.metrics.mean_absolute_error`. -/
def meanAbsErr (yt yp : List ℚ) : ℚ :=
  (List.zipWith (fun t p => |t - p|) yt yp).sum / (yt.length : ℚ)

/-- `sklearn.metrics.mean_squared_error` (the source reports its square root
as `rmse`). -/
def meanSqErr (yt yp : List ℚ) : ℚ := ssRes yt yp / (yt.length : ℚ)

/-- `np.ndarray.min` over the sample points. -/
def listMin (l : List ℚ) : ℚ := l.foldl min (l.headD 0)

/-- `np.ndarray.max` over the sample points. -/
def listMax (l : List ℚ) : ℚ := l.foldl max (l.headD 0)

/-- `np.linspace lo hi n`. -/
def linspace (lo hi : ℚ) (n : ℕ) : List ℚ :=
  (List.range n).map fun i => lo + (hi - lo) * i / ((n : ℚ) - 1)

/-- `np.clip(v, 0, 10)` of line 185. -/
def clip010 (v : ℚ) : ℚ := min (max v 0) 10

/-- The dictionary returned by `fit_and_evaluate` (lines 175-186); `mse` holds
the square of the reported `rmse`. -/
structure ChannelFit where
  coeffs : ℚ × ℚ × ℚ
  inv_coeffs : ℚ × ℚ × ℚ
  r2 : ℚ
  mae : ℚ
  mse : ℚ
  fit_x : List ℚ
  fit_y : List ℚ
  actual_x : List ℚ
  actual_y : List ℚ
  predicted_concentration : List ℚ
deriving DecidableEq

/-- `fit_and_evaluate(y_vals, x_vals, channel_name)` of lines 158-186. -/
def fitAndEvaluate (yVals xVals : List ℚ) : ChannelFit :=
  let coeffs := polyfit2 xVals yVals
  let yPred := xVals.map (evalPoly2 coeffs)
  let invCoeffs := polyfit2 yVals xVals
  let xFit := linspace (listMin xVals) (listMax xVals) 50
  { coeffs := coeffs
    inv_coeffs := invCoeffs
    r2 := r2_score yVals yPred
    mae := meanAbsErr yVals yPred
    mse := meanSqErr yVals yPred
    fit_x := xFit
    fit_y := xFit.map (evalPoly2 coeffs)
    actual_x := xVals
    actual_y := yVals
    predicted_concentration := yVals.map fun y => clip010 (evalPoly2 invCoeffs y) }

/-- One record of `color_values` (lines 194-209). -/
structure WellRec where
  well : ℕ
  concentration : ℚ
  r : ℚ
  g : ℚ
  b : ℚ
  rgb_mean : ℚ
  s_mean : ℚ
  pred_from_r : ℚ
  pred_from_g : ℚ
  pred_from_b : ℚ
  pred_from_rgb : ℚ
deriving DecidableEq

/-- The dictionary returned by `analyze_strip_image` (lines 193-219);
`trial_mse` holds the square of the reported `rmse`. -/
structure Report where
  color_values : List WellRec
  r_channel : ChannelFit
  g_channel : ChannelFit
  b_channel : ChannelFit
  rgb_mean_channel : ChannelFit
  trial_r2 : ℚ
  trial_mae : ℚ
  trial_mse : ℚ
deriving DecidableEq

/-- Lines 149-219 applied to the padded/truncated `rgb_data`: per-channel
arrays, the four fits and the assembled result dictionary. -/
def assembleReport (data : List StatRec) : Report :=
  let rValues := data.map (·.r_mean)
  let gValues := data.map (·.g_mean)
  let bValues := data.map (·.b_mean)
  let rgbMean := List.zipWith (fun rg b => (rg + b) / 3) (List.zipWith (· + ·) rValues gValues) bValues
  let rFit := fitAndEvaluate rValues CONCENTRATIONS
  let gFit := fitAndEvaluate gValues CONCENTRATIONS
  let bFit := fitAndEvaluate bValues CONCENTRATIONS
  let rgbFit := fitAndEvaluate rgbMean CONCENTRATIONS
  { color_values := (List.range data.length).map fun i =>
      { well := i + 1
        concentration := CONCENTRATIONS.getD i 0
        r := (data.getD i zeroStat).r_mean
        g := (data.getD i zeroStat).g_mean
        b := (data.getD i zeroStat).b_mean
        rgb_mean := rgbMean.getD i 0
        s_mean := (data.getD i zeroStat).s_mean
        pred_from_r := rFit.predicted_concentration.getD i 0
        pred_from_g := gFit.predicted_concentration.getD i 0
        pred_from_b := bFit.predicted_concentration.getD i 0
        pred_from_rgb := rgbFit.predicted_concentration.getD i 0 }
    r_channel := rFit
    g_channel := gFit
    b_channel := bFit
    rgb_mean_channel := rgbFit
    trial_r2 := rFit.r2
    trial_mae := rFit.mae
    trial_mse := rFit.mse }

/-- The message of the `ValueError` raised at line 100. -/
def noPadsMsg : String := "No valid color pads detected on the strip."

/-- `analyze_strip_image` from the blob-detection output onward (lines
86-219): raise when no blob qualifies, otherwise select/order the blobs,
sample them, pad/truncate and assemble the report. -/
def analyze (piv : ℚ) (cnts : List Contour) (img : Img) : Except String Report :=
  match extractBlobs piv cnts with
  | [] => Except.error noPadsMsg
  | b :: bs =>
    Except.ok (assembleReport (padTruncate ((selectBlobs (b :: bs)).map (sampleWell img))))

/-- A `ChannelFit` with no data, used as the placeholder report component for
the failure case of `analyze`. -/
def emptyFit : ChannelFit := ⟨(0, 0, 0), (0, 0, 0), 0, 0, 0, [], [], [], [], []⟩

/-- A placeholder report for the failure case of `analyze`. -/
def defaultReport : Report := ⟨[], emptyFit, emptyFit, emptyFit, emptyFit, 0, 0, 0⟩

/-- The report of a successful analysis (the placeholder otherwise). -/
def reportOf (e : Except String Report) : Report :=
  match e with
  | Except.ok rep => rep
  | Except.error _ => defaultReport

/-- Decidable range check for a predicted concentration. -/
def inRange010 (q : ℚ) : Bool := decide (0 ≤ q) && decide (q ≤ 10)

/-- Checker: every per-well predicted concentration of a report — both the
`predicted_concentration` list of each of the four channel fits and the four
`pred_from_..` fields of each well record — lies in `[0, 10]`. -/
def predsClamped (rep : Report) : Bool :=
  rep.color_values.all (fun w =>
    inRange010 w.pred_from_r && inRange010 w.pred_from_g &&
    inRange010 w.pred_from_b && inRange010 w.pred_from_rgb) &&
  [rep.r_channel, rep.g_channel, rep.b_channel, rep.rgb_mean_channel].all
    (fun ch => ch.predicted_concentration.all inRange010)

/-- A concrete qualifying contour: area 100, perimeter 35, centre the origin,
radius 1. -/
def cntD : Contour := { area := 100, peri := 35, x := 0, y := 0, r := 1 }

/-- A concrete 1×1 image with a uniform gray pixel. -/
def imgD : Img := { h := 1, w := 1, pix := fun _ _ => (128, 128, 128), sat := fun _ _ => 100 }

/-- A blob whose centroid lies far outside `imgD`, so its sampling mask is
empty. -/
def blobFarD : Blob := { x := 100, y := 100, r := 1, area := 100, circ := 1 }

/-- Twelve blobs on one row: eleven at `y = 10` and one outlier at `y = 50`. -/
def rowBlobsD : List Blob :=
  [⟨0, 10, 2, 100, 1⟩, ⟨5, 10, 2, 100, 1⟩, ⟨10, 10, 2, 100, 1⟩, ⟨15, 10, 2, 100, 1⟩,
   ⟨20, 10, 2, 100, 1⟩, ⟨25, 10, 2, 100, 1⟩, ⟨30, 50, 2, 100, 1⟩, ⟨35, 10, 2, 100, 1⟩,
   ⟨40, 10, 2, 100, 1⟩, ⟨45, 10, 2, 100, 1⟩, ⟨50, 10, 2, 100, 1⟩, ⟨55, 10, 2, 100, 1⟩]

/-! ## Helper lemmas -/

theorem clip010_bounds (v : ℚ) : 0 ≤ clip010 v ∧ clip010 v ≤ 10 := by
  constructor
  · exact le_min (le_max_right v 0) (by norm_num)
  · exact min_le_right _ _

theorem fitAndEvaluate_pred_bounds (yVals xVals : List ℚ) :
    ∀ v ∈ (fitAndEvaluate yVals xVals).predicted_concentration, 0 ≤ v ∧ v ≤ 10 := by
  intro v hv
  simp only [fitAndEvaluate, List.mem_map] at hv
  obtain ⟨y, -, rfl⟩ := hv
  exact clip010_bounds _

theorem getD_bounds (l : List ℚ) (h : ∀ v ∈ l, 0 ≤ v ∧ v ≤ 10) (i : ℕ) :
    0 ≤ l.getD i 0 ∧ l.getD i 0 ≤ 10 := by
  by_cases hi : i < l.length
  · rw [List.getD_eq_getElem l 0 hi]
    exact h _ (List.getElem_mem hi)
  · rw [List.getD_eq_default l 0 (by omega)]
    norm_num

theorem inRange010_true {q : ℚ} (h0 : 0 ≤ q) (h10 : q ≤ 10) : inRange010 q = true := by
  simp [inRange010, h0, h10]

theorem predsClamped_assembleReport (data : List StatRec) :
    predsClamped (assembleReport data) = true := by
  rw [predsClamped]
  rw [Bool.and_eq_true]
  constructor
  · rw [List.all_eq_true]
    intro w hw
    simp only [assembleReport, List.mem_map] at hw
    obtain ⟨i, -, rfl⟩ := hw
    simp only [Bool.and_eq_true]
    refine ⟨⟨⟨?_, ?_⟩, ?_⟩, ?_⟩ <;>
      · obtain ⟨h0, h10⟩ := getD_bounds _ (fitAndEvaluate_pred_bounds _ _) i
        exact inRange010_true h0 h10
  · rw [List.all_eq_true]
    intro ch hch
    rw [List.all_eq_true]
    intro v hv
    have hb : ∀ yv xv : List ℚ, ∀ u ∈ (fitAndEvaluate yv xv).predicted_concentration,
        inRange010 u = true := by
      intro yv xv u hu
      obtain ⟨h0, h10⟩ := fitAndEvaluate_pred_bounds yv xv u hu
      exact inRange010_true h0 h10
    simp only [assembleReport, List.mem_cons, List.not_mem_nil, or_false] at hch
    rcases hch with rfl | rfl | rfl | rfl <;> exact hb _ _ v hv

theorem padTruncate_length (l : List StatRec) : (padTruncate l).length = EXPECTED_COLS := by
  rw [padTruncate]
  split_ifs with h1 h2
  · simp [EXPECTED_COLS] at h1 ⊢
    omega
  · simp [EXPECTED_COLS] at h2 ⊢
    omega
  · simp [EXPECTED_COLS] at h1 h2 ⊢
    omega

theorem sortByX_perm (l : List Blob) : (sortByX l).Perm l :=
  List.mergeSort_perm l _

theorem sortByX_length (l : List Blob) : (sortByX l).length = l.length := by
  simp [sortByX]

theorem sortByX_chain (l : List Blob) :
    List.Chain' (fun a b : Blob => a.x ≤ b.x) (sortByX l) := by
  have hs : (sortByX l).Pairwise (fun a b : Blob => decide (a.x ≤ b.x) = true) := by
    apply List.sorted_mergeSort
    · intro a b c hab hbc
      simp only [decide_eq_true_eq] at *
      exact le_trans hab hbc
    · intro a b
      simp only [Bool.or_eq_true, decide_eq_true_eq]
      exact le_total _ _
  exact (hs.imp (by simp)).chain'

theorem selectBlobs_chain (bs : List Blob) :
    List.Chain' (fun a b : Blob => a.x ≤ b.x) (selectBlobs bs) := by
  rw [selectBlobs]
  split_ifs <;> exact sortByX_chain _

theorem selectBlobs_length_le (bs : List Blob) :
    (selectBlobs bs).length ≤ EXPECTED_COLS := by
  rw [selectBlobs]
  split_ifs with h
  · rw [sortByX_length, List.length_take]
    exact min_le_left _ _
  · rw [sortByX_length] at h
    rw [sortByX_length]
    omega

theorem powSum_eq_sum_fin (xv : List ℚ) (k : ℕ) :
    powSum xv k = ∑ i : Fin xv.length, xv.get i ^ k := by
  conv_lhs => rw [powSum, ← List.ofFn_get xv]
  rw [List.map_ofFn, List.sum_ofFn]
  rfl

theorem dotPow_map_poly (a b c : ℚ) (xv : List ℚ) (k : ℕ) :
    dotPow xv (xv.map fun t => a * t ^ 2 + b * t + c) k
      = a * powSum xv (k + 2) + b * powSum xv (k + 1) + c * powSum xv k := by
  induction xv with
  | nil => simp [dotPow, powSum]
  | cons x xs ih =>
    simp only [dotPow, powSum, List.map_cons, List.zipWith_cons_cons, List.sum_cons] at ih ⊢
    rw [ih]
    ring

theorem ssRes_self (y : List ℚ) : ssRes y y = 0 := by
  induction y with
  | nil => simp [ssRes]
  | cons t ts ih =>
    simp only [ssRes, List.zipWith_cons_cons, List.sum_cons] at ih ⊢
    rw [ih]
    ring

theorem r2_score_self (y : List ℚ) : r2_score y y = 1 := by
  rw [r2_score, ssRes_self]
  split_ifs with h h'
  · rfl
  · exact absurd rfl h'
  · rw [zero_div, sub_zero]

theorem polyfit2_exact (xv : List ℚ) (a b c : ℚ) (hD : gramDet xv ≠ 0) :
    polyfit2 xv (xv.map fun t => a * t ^ 2 + b * t + c) = (a, b, c) := by
  rw [polyfit2, if_neg hD]
  simp only [dotPow_map_poly]
  norm_num [Prod.ext_iff]
  refine ⟨?_, ?_, ?_⟩ <;>
    · rw [div_eq_iff hD]
      simp only [gramDet, det3]
      ring

theorem gramDet_ne_zero (xv : List ℚ) (u v w : Fin xv.length)
    (huv : xv.get u ≠ xv.get v) (huw : xv.get u ≠ xv.get w)
    (hvw : xv.get v ≠ xv.get w) : gramDet xv ≠ 0 := by
  intro hdet
  set M : Matrix (Fin 3) (Fin 3) ℚ :=
    !![powSum xv 4, powSum xv 3, powSum xv 2;
       powSum xv 3, powSum xv 2, powSum xv 1;
       powSum xv 2, powSum xv 1, powSum xv 0] with hMdef
  have hMdet : M.det = 0 := by
    rw [Matrix.det_fin_three]
    simp only [hMdef, Matrix.cons_val', Matrix.cons_val_zero, Matrix.cons_val_one,
      Matrix.head_cons, Matrix.empty_val', Matrix.cons_val_fin_one, Matrix.head_fin_const,
      Matrix.cons_val_two, Matrix.tail_cons, Matrix.of_apply]
    rw [gramDet, det3] at hdet
    linarith [hdet]
  obtain ⟨z, hz0, hz⟩ := Matrix.exists_mulVec_eq_zero_iff.mpr hMdet
  have row : ∀ i : Fin 3, (M.mulVec z) i = 0 := fun i => by rw [hz]; rfl
  have r0 := row 0
  have r1 := row 1
  have r2 := row 2
  simp only [hMdef, Matrix.mulVec, Matrix.dotProduct, Fin.sum_univ_three,
    Matrix.cons_val', Matrix.cons_val_zero, Matrix.cons_val_one, Matrix.head_cons,
    Matrix.empty_val', Matrix.cons_val_fin_one, Matrix.head_fin_const,
    Matrix.cons_val_two, Matrix.tail_cons, Matrix.of_apply] at r0 r1 r2
  have key : (∑ i : Fin xv.length, (z 0 * xv.get i ^ 2 + z 1 * xv.get i + z 2) ^ 2)
      = z 0 * (powSum xv 4 * z 0 + powSum xv 3 * z 1 + powSum xv 2 * z 2)
      + z 1 * (powSum xv 3 * z 0 + powSum xv 2 * z 1 + powSum xv 1 * z 2)
      + z 2 * (powSum xv 2 * z 0 + powSum xv 1 * z 1 + powSum xv 0 * z 2) := by
    simp only [powSum_eq_sum_fin, Finset.mul_sum, Finset.sum_mul, ← Finset.sum_add_distrib]
    exact Finset.sum_congr rfl fun i _ => by ring
  have keyzero : (∑ i : Fin xv.length, (z 0 * xv.get i ^ 2 + z 1 * xv.get i + z 2) ^ 2) = 0 := by
    rw [key, r0, r1, r2]
    ring
  have each : ∀ i : Fin xv.length, z 0 * xv.get i ^ 2 + z 1 * xv.get i + z 2 = 0 := by
    intro i
    have hnn : ∀ j ∈ Finset.univ, (0 : ℚ) ≤ (z 0 * xv.get j ^ 2 + z 1 * xv.get j + z 2) ^ 2 :=
      fun j _ => sq_nonneg _
    have := (Finset.sum_eq_zero_iff_of_nonneg hnn).mp keyzero i (Finset.mem_univ i)
    exact pow_eq_zero_iff (two_ne_zero) |>.mp this
  have equ := each u
  have eqv := each v
  have eqw := each w
  have h12 : z 0 * (xv.get u + xv.get v) + z 1 = 0 := by
    have hne : xv.get u - xv.get v ≠ 0 := sub_ne_zero.mpr huv
    have hprod : (xv.get u - xv.get v) * (z 0 * (xv.get u + xv.get v) + z 1)
        = (z 0 * xv.get u ^ 2 + z 1 * xv.get u + z 2)
        - (z 0 * xv.get v ^ 2 + z 1 * xv.get v + z 2) := by ring
    rw [equ, eqv, sub_zero] at hprod
    exact (mul_eq_zero.mp hprod).resolve_left hne
  have h13 : z 0 * (xv.get u + xv.get w) + z 1 = 0 := by
    have hne : xv.get u - xv.get w ≠ 0 := sub_ne_zero.mpr huw
    have hprod : (xv.get u - xv.get w) * (z 0 * (xv.get u + xv.get w) + z 1)
        = (z 0 * xv.get u ^ 2 + z 1 * xv.get u + z 2)
        - (z 0 * xv.get w ^ 2 + z 1 * xv.get w + z 2) := by ring
    rw [equ, eqw, sub_zero] at hprod
    exact (mul_eq_zero.mp hprod).resolve_left hne
  have hz0' : z 0 = 0 := by
    have hne : xv.get v - xv.get w ≠ 0 := sub_ne_zero.mpr hvw
    have hprod : (xv.get v - xv.get w) * z 0
        = (z 0 * (xv.get u + xv.get v) + z 1) - (z 0 * (xv.get u + xv.get w) + z 1) := by ring
    rw [h12, h13, sub_zero] at hprod
    exact (mul_eq_zero.mp hprod).resolve_left hne
  have hz1 : z 1 = 0 := by
    have := h12
    rw [hz0'] at this
    linarith
  have hz2 : z 2 = 0 := by
    have := equ
    rw [hz0', hz1] at this
    linarith
  apply hz0
  funext j
  fin_cases j
  · exact hz0'
  · exact hz1
  · exact hz2

/-! ## Claim theorems -/

/-- C5: for every x-array of 11 distinct values and every y that is an exact
degree-≤2 polynomial function of x, the forward fitting routine's reported
R², computed on the same 11 points used for fitting, equals 1. -/
theorem forward_fit_r2_exact_quadratic (xs : List ℚ) (a b c : ℚ)
    (hlen : xs.length = 11) (hnd : xs.Nodup) :
    (fitAndEvaluate (xs.map fun t => a * t ^ 2 + b * t + c) xs).r2 = 1 := by
  have h0 : (0 : ℕ) < xs.length := by omega
  have h1 : (1 : ℕ) < xs.length := by omega
  have h2 : (2 : ℕ) < xs.length := by omega
  have hne : ∀ i j : Fin xs.length, i ≠ j → xs.get i ≠ xs.get j := by
    intro i j hij h
    exact hij (hnd.get_inj_iff.mp h)
  have hD : gramDet xs ≠ 0 :=
    gramDet_ne_zero xs ⟨0, h0⟩ ⟨1, h1⟩ ⟨2, h2⟩
      (hne _ _ (Fin.ne_of_val_ne (by norm_num)))
      (hne _ _ (Fin.ne_of_val_ne (by norm_num)))
      (hne _ _ (Fin.ne_of_val_ne (by norm_num)))
  have hco := polyfit2_exact xs a b c hD
  simp only [fitAndEvaluate]
  rw [hco]
  have hmap : xs.map (evalPoly2 (a, b, c)) = xs.map fun t => a * t ^ 2 + b * t + c := rfl
  rw [hmap]
  exact r2_score_self _

/-- C5 witness: the concrete reference x-array with the quadratic
`t ↦ t² + 2t + 3`. -/
theorem forward_fit_r2_exact_quadratic_witness :
    (fitAndEvaluate (CONCENTRATIONS.map fun t => 1 * t ^ 2 + 2 * t + 3) CONCENTRATIONS).r2 = 1 :=
  forward_fit_r2_exact_quadratic CONCENTRATIONS 1 2 3 (by simp [CONCENTRATIONS])
    (by norm_num [CONCENTRATIONS])

/-- C9: a channel whose 11 per-well values are all identical is fitted without
any division by zero: the total sum of squares of the R² formula is zero, so
the guarded branch of `r2_score` is taken (yielding 1, since in exact
arithmetic the forward fit of a constant channel is exact), and a complete
`ChannelFit` record (with its 11 predicted concentrations) is still
produced. -/
theorem constant_channel_fit_safe (q : ℚ) :
    ssTot (List.replicate 11 q) = 0
    ∧ (fitAndEvaluate (List.replicate 11 q) CONCENTRATIONS).r2 = 1
    ∧ (fitAndEvaluate (List.replicate 11 q) CONCENTRATIONS).predicted_concentration.length
        = 11 := by
  have hpoly : ∀ t : ℚ, 0 * t ^ 2 + 0 * t + q = q := by intro t; ring
  have hrep : CONCENTRATIONS.map (fun t => 0 * t ^ 2 + 0 * t + q) = List.replicate 11 q := by
    simp only [CONCENTRATIONS, List.map_cons, List.map_nil, hpoly]
    rfl
  have hmean : mean (List.replicate 11 q) = q := by
    rw [mean]
    simp only [List.sum_replicate, List.length_replicate, nsmul_eq_mul]
    push_cast
    ring
  refine ⟨?_, ?_, ?_⟩
  · rw [ssTot, hmean]
    simp [List.map_replicate, List.sum_replicate]
  · have hD : gramDet CONCENTRATIONS ≠ 0 := by
      norm_num [gramDet, det3, powSum, CONCENTRATIONS, List.map_cons, List.map_nil,
        List.sum_cons, List.sum_nil]
    have hco := polyfit2_exact CONCENTRATIONS 0 0 q hD
    rw [hrep] at hco
    simp only [fitAndEvaluate]
    rw [hco]
    have hmap : CONCENTRATIONS.map (evalPoly2 (0, 0, q)) = List.replicate 11 q := by
      rw [← hrep]
      rfl
    rw [hmap]
    exact r2_score_self _
  · simp [fitAndEvaluate]

/-- C1: every per-well predicted concentration appearing in the output — in
each channel fit's `predicted_concentration` list and in each well record's
`pred_from_..` fields — lies in the closed interval `[0, 10]`: the inverse
polynomial value is clamped before being reported.  (For a failed analysis
`reportOf` is the empty placeholder, so the statement covers exactly the
successful analyses.) -/
theorem predictions_clamped (piv : ℚ) (cnts : List Contour) (img : Img) :
    predsClamped (reportOf (analyze piv cnts img)) = true := by
  cases hE : extractBlobs piv cnts with
  | nil =>
    simp only [analyze, hE]
    simp [reportOf, defaultReport, predsClamped, emptyFit]
  | cons b bs =>
    simp only [analyze, hE, reportOf]
    exact predsClamped_assembleReport _

/-- C2: every successful analysis reports an ordered well sequence
(`color_values`) of length exactly `EXPECTED_COLS = 11`. -/
theorem report_has_eleven_wells (piv : ℚ) (cnts : List Contour) (img : Img) (rep : Report)
    (h : analyze piv cnts img = Except.ok rep) :
    rep.color_values.length = EXPECTED_COLS := by
  cases hE : extractBlobs piv cnts with
  | nil =>
    rw [analyze, hE] at h
    exact absurd h (by simp)
  | cons b bs =>
    rw [analyze, hE, Except.ok.injEq] at h
    subst h
    simp only [assembleReport, List.length_map, List.length_range]
    exact padTruncate_length _

/-- C2 witness: a one-contour image analysis succeeds and reports 11 wells. -/
theorem report_has_eleven_wells_witness :
    ∃ rep : Report, analyze 3 [cntD] imgD = Except.ok rep
      ∧ rep.color_values.length = EXPECTED_COLS := by
  have hblobs : extractBlobs 3 [cntD] = [mkBlob 3 cntD] := by
    simp only [extractBlobs, List.filterMap_cons, List.filterMap_nil]
    norm_num [cntD, circularity, MIN_BLOB_AREA]
  have h : analyze 3 [cntD] imgD
      = Except.ok (assembleReport (padTruncate
          ((selectBlobs [mkBlob 3 cntD]).map (sampleWell imgD)))) := by
    rw [analyze, hblobs]
  exact ⟨_, h, report_has_eleven_wells _ _ _ _ h⟩

/-- C3: the final ordered well sequence is sorted by non-decreasing
x-centroid: adjacent wells in the selector's output satisfy `x i ≤ x (i+1)`. -/
theorem wells_sorted_by_x (bs : List Blob) :
    List.Chain' (fun a b : Blob => a.x ≤ b.x) (selectBlobs bs) :=
  selectBlobs_chain bs

/-- C4: when blob extraction yields zero qualifying blobs (in particular for
an empty contour list), the analysis aborts with the descriptive
`No valid color pads detected on the strip.` error and produces no report. -/
theorem no_pads_detected_error (piv : ℚ) (cnts : List Contour) (img : Img)
    (h : extractBlobs piv cnts = []) :
    analyze piv cnts img = Except.error noPadsMsg := by
  rw [analyze, h]

/-- C4 witness: the empty contour list. -/
theorem no_pads_detected_error_witness :
    extractBlobs 3 [] = [] ∧ analyze 3 [] imgD = Except.error noPadsMsg :=
  ⟨rfl, no_pads_detected_error 3 [] imgD rfl⟩

/-- C7: a contour is retained as a blob iff its perimeter is nonzero, its
area is at least `MIN_BLOB_AREA = 60` and its circularity is at least `0.3`;
contours with `area < 5` or zero perimeter are merely skipped (the `area < 5`
guard is subsumed by `area ≥ 60`). -/
theorem contour_retained_iff (piv : ℚ) (c : Contour) :
    extractBlobs piv [c]
      = if c.peri ≠ 0 ∧ MIN_BLOB_AREA ≤ c.area
            ∧ (3/10 : ℚ) ≤ circularity piv c.area c.peri
        then [mkBlob piv c] else [] := by
  by_cases h5 : c.area < 5
  · have hR : ¬ (c.peri ≠ 0 ∧ MIN_BLOB_AREA ≤ c.area
        ∧ (3/10 : ℚ) ≤ circularity piv c.area c.peri) := by
      rintro ⟨-, ha, -⟩
      rw [MIN_BLOB_AREA] at ha
      linarith
    simp [extractBlobs, h5, hR]
  · by_cases hp : c.peri = 0
    · have hR : ¬ (c.peri ≠ 0 ∧ MIN_BLOB_AREA ≤ c.area
          ∧ (3/10 : ℚ) ≤ circularity piv c.area c.peri) := by
        rintro ⟨hp', -, -⟩
        exact hp' hp
      simp [extractBlobs, h5, hp, hR]
    · by_cases hk : MIN_BLOB_AREA ≤ c.area ∧ (3/10 : ℚ) ≤ circularity piv c.area c.peri
      · simp [extractBlobs, h5, hp, hk, hp, hk.1, hk.2]
      · have hR : ¬ (c.peri ≠ 0 ∧ MIN_BLOB_AREA ≤ c.area
            ∧ (3/10 : ℚ) ≤ circularity piv c.area c.peri) := by
          rintro ⟨-, ha, hc⟩
          exact hk ⟨ha, hc⟩
        simp [extractBlobs, h5, hp, hk, hR]

/-- C8: a well whose shrunk-radius circular sampling mask selects zero pixels
produces the all-zero statistics record, with no failure. -/
theorem empty_mask_zero_stats (img : Img) (b : Blob)
    (h : maskPixels img b.x b.y (rr72 b.r) = []) :
    sampleWell img b = zeroStat := by
  simp only [sampleWell, h]
  simp

/-- C8 witness: a blob whose centroid lies far outside a 1×1 image. -/
theorem empty_mask_zero_stats_witness :
    maskPixels imgD blobFarD.x blobFarD.y (rr72 blobFarD.r) = []
    ∧ sampleWell imgD blobFarD = zeroStat := by
  have hfloor : (⌊(72/100 : ℚ)⌋ : ℤ) = 0 := by
    rw [Int.floor_eq_zero_iff]
    constructor <;> norm_num
  have hr : rr72 blobFarD.r = 1 := by
    rw [rr72, blobFarD, pyInt]
    norm_num [hfloor]
  have hm : maskPixels imgD blobFarD.x blobFarD.y (rr72 blobFarD.r) = [] := by
    rw [hr]
    simp only [maskPixels, imgD, blobFarD]
    norm_num [List.range_succ]
  exact ⟨hm, empty_mask_zero_stats imgD blobFarD hm⟩

/-- C10: the selected blob list never exceeds `EXPECTED_COLS = 11`, so the
statistics list handed to the pad/truncate step never triggers its truncation
branch: the only adjustment ever performed is padding with all-zero
records. -/
theorem truncation_unreachable (bs : List Blob) (img : Img) :
    ((selectBlobs bs).map (sampleWell img)).length ≤ EXPECTED_COLS
    ∧ padTruncate ((selectBlobs bs).map (sampleWell img))
        = ((selectBlobs bs).map (sampleWell img))
          ++ List.replicate
              (EXPECTED_COLS - ((selectBlobs bs).map (sampleWell img)).length) zeroStat := by
  have hlen : ((selectBlobs bs).map (sampleWell img)).length ≤ EXPECTED_COLS := by
    rw [List.length_map]
    exact selectBlobs_length_le bs
  refine ⟨hlen, ?_⟩
  rw [padTruncate]
  split_ifs with h1 h2
  · omega
  · rfl
  · have h0 : EXPECTED_COLS - ((selectBlobs bs).map (sampleWell img)).length = 0 := by omega
    rw [h0, List.replicate_zero, List.append_nil]

/-- C6: the selector never returns more than `EXPECTED_COLS = 11` blobs; for
at most 11 blobs it keeps them all, sorted by x-centroid; for more than 11 it
keeps exactly 11 blobs forming a sub-multiset of the input whose absolute
deviations from the median y-centroid are no larger than those of every
discarded blob, re-sorted by ascending x-centroid (a deterministic choice:
stable sorting resolves ties by position). -/
theorem selector_keeps_closest_eleven (bs : List Blob) :
    (selectBlobs bs).length ≤ EXPECTED_COLS
    ∧ (bs.length ≤ EXPECTED_COLS →
        (selectBlobs bs).Perm bs
        ∧ List.Chain' (fun a b : Blob => a.x ≤ b.x) (selectBlobs bs))
    ∧ (EXPECTED_COLS < bs.length →
        (selectBlobs bs).length = EXPECTED_COLS
        ∧ List.Chain' (fun a b : Blob => a.x ≤ b.x) (selectBlobs bs)
        ∧ ∃ rest : List Blob,
            bs.Perm (selectBlobs bs ++ rest)
            ∧ ∀ a ∈ selectBlobs bs, ∀ b' ∈ rest,
                |(a.y : ℚ) - medY bs| ≤ |(b'.y : ℚ) - medY bs|) := by
  refine ⟨selectBlobs_length_le bs, ?_, ?_⟩
  · intro hle
    have hsel : selectBlobs bs = sortByX bs := by
      simp only [selectBlobs]
      rw [if_neg]
      rw [sortByX_length]
      omega
    rw [hsel]
    exact ⟨sortByX_perm bs, sortByX_chain bs⟩
  · intro hgt
    have hcond : EXPECTED_COLS < (sortByX bs).length := by
      rw [sortByX_length]
      omega
    have hsel : selectBlobs bs
        = sortByX (((sortByX bs).mergeSort (devLe (medY bs))).take EXPECTED_COLS) := by
      simp only [selectBlobs]
      rw [if_pos hcond]
    set t := (sortByX bs).mergeSort (devLe (medY bs)) with ht
    have htperm : t.Perm (sortByX bs) := List.mergeSort_perm _ _
    have htlen : t.length = bs.length := by
      rw [ht, List.length_mergeSort, sortByX_length]
    have hsorted : t.Pairwise fun a b' => |(a.y : ℚ) - medY bs| ≤ |(b'.y : ℚ) - medY bs| := by
      have hp : t.Pairwise fun a b' => devLe (medY bs) a b' = true := by
        rw [ht]
        apply List.sorted_mergeSort
        · intro a b' c hab hbc
          simp only [devLe, decide_eq_true_eq] at hab hbc ⊢
          exact le_trans hab hbc
        · intro a b'
          simp only [devLe, Bool.or_eq_true, decide_eq_true_eq]
          exact le_total _ _
      exact hp.imp (by simp [devLe])
    have hkperm : (selectBlobs bs).Perm (t.take EXPECTED_COLS) := by
      rw [hsel]
      exact sortByX_perm _
    refine ⟨?_, ?_, ⟨t.drop EXPECTED_COLS, ?_, ?_⟩⟩
    · rw [hsel, sortByX_length, List.length_take]
      omega
    · rw [hsel]
      exact sortByX_chain _
    · have h1 : bs.Perm t := (sortByX_perm bs).symm.trans htperm.symm
      have h2 : t.Perm (t.take EXPECTED_COLS ++ t.drop EXPECTED_COLS) := by
        rw [List.take_append_drop]
      have h3 : ((selectBlobs bs) ++ t.drop EXPECTED_COLS).Perm
          (t.take EXPECTED_COLS ++ t.drop EXPECTED_COLS) :=
        hkperm.append (List.Perm.refl _)
      exact (h1.trans h2).trans h3.symm
    · intro a ha b' hb'
      have ha' : a ∈ t.take EXPECTED_COLS := hkperm.mem_iff.mp ha
      exact List.Sorted.rel_of_mem_take_of_mem_drop hsorted ha' hb'

/-- C6 witness: twelve collinear blobs with one vertical outlier. -/
theorem selector_keeps_closest_eleven_witness :
    (selectBlobs rowBlobsD).length = EXPECTED_COLS
    ∧ List.Chain' (fun a b : Blob => a.x ≤ b.x) (selectBlobs rowBlobsD)
    ∧ ∃ rest : List Blob,
        rowBlobsD.Perm (selectBlobs rowBlobsD ++ rest)
        ∧ ∀ a ∈ selectBlobs rowBlobsD, ∀ b' ∈ rest,
            |(a.y : ℚ) - medY rowBlobsD| ≤ |(b'.y : ℚ) - medY rowBlobsD| :=
  (selector_keeps_closest_eleven rowBlobsD).2.2 (by decide)
